import Mathlib

/-!
Shallow embedding of the prompt-composition engine in `src/builder.ts`
(`PromptBuilder`, its mutation API and the recursive renderer) together
with the section/context data model of `src/types.ts`.

Conventions of the embedding:
* the TS tagged union `PromptSection | PromptGroup | PromptOneOf` becomes
  the inductive `PromptNode`;
* the renderer's mutable `parts` / `included` / `excluded` arrays are
  write-only (the code only pushes), so each call returns the lists it
  pushed and callers concatenate them in call order;
* the runtime value of the `PromptFormat` selector is a string, and
  `assertNever`'s `throw` becomes an `Except.error`, threaded through the
  renderer exactly where the code can throw.
-/

namespace Teleprompt

/-- `PromptSection` from `src/types.ts`: id, optional `when` guard,
`render` function and optional `priority` weight. -/
structure PromptSection (Ctx : Type) where
  id : String
  when : Option (Ctx → Bool) := none
  render : Ctx → String
  priority : Option Int := none

/-- The internal node union of `src/builder.ts`:
`PromptSection | PromptGroup | PromptOneOf`. -/
inductive PromptNode (Ctx : Type) where
  | sec (s : PromptSection Ctx)
  | group (id : String) (children : List (PromptNode Ctx))
  | oneOf (candidates : List (PromptSection Ctx))

/-- The predicate `use`/`group` test while scanning for a replace slot:
`!isOneOf(n) && n.id === id`. -/
def nodeMatchesId {Ctx : Type} (n : PromptNode Ctx) (id : String) : Bool :=
  match n with
  | .sec s => s.id == id
  | .group gid _ => gid == id
  | .oneOf _ => false

/-- `collectIds` from `src/builder.ts`. -/
def collectIds {Ctx : Type} : List (PromptNode Ctx) → List String
  | [] => []
  | .sec s :: ns => s.id :: collectIds ns
  | .group gid children :: ns => (gid :: collectIds children) ++ collectIds ns
  | .oneOf cands :: ns => cands.map (fun c => c.id) ++ collectIds ns

/-- `hasNode` from `src/builder.ts`. -/
def hasNode {Ctx : Type} : List (PromptNode Ctx) → String → Bool
  | [], _ => false
  | .sec s :: ns, id => s.id == id || hasNode ns id
  | .group gid children :: ns, id =>
      gid == id || hasNode children id || hasNode ns id
  | .oneOf cands :: ns, id =>
      cands.any (fun c => c.id == id) || hasNode ns id

/-- `removeNode` from `src/builder.ts`: drops every match at every depth,
rebuilds groups, filters oneOf candidate lists and drops an emptied set. -/
def removeNode {Ctx : Type} : List (PromptNode Ctx) → String → List (PromptNode Ctx)
  | [], _ => []
  | .sec s :: ns, id =>
      if s.id != id then .sec s :: removeNode ns id else removeNode ns id
  | .group gid children :: ns, id =>
      if gid != id then .group gid (removeNode children id) :: removeNode ns id
      else removeNode ns id
  | .oneOf cands :: ns, id =>
      let remaining := cands.filter (fun c => c.id != id)
      if remaining.length > 0 then .oneOf remaining :: removeNode ns id
      else removeNode ns id

/-- `deepCopy` from `src/builder.ts`: groups and candidate lists are
rebuilt, section values are shared. -/
def deepCopy {Ctx : Type} : List (PromptNode Ctx) → List (PromptNode Ctx)
  | [] => []
  | .sec s :: ns => .sec s :: deepCopy ns
  | .group gid children :: ns => .group gid (deepCopy children) :: deepCopy ns
  | .oneOf cands :: ns => .oneOf (cands.map id) :: deepCopy ns

/-- The `PromptBuilder` class: its state is the top-level node list. -/
structure PromptBuilder (Ctx : Type) where
  nodes : List (PromptNode Ctx) := []

namespace PromptBuilder

/-- `PromptBuilder.use`: replace the first top-level non-oneOf node with
the same id in place, else append. -/
def use {Ctx : Type} (b : PromptBuilder Ctx) (s : PromptSection Ctx) :
    PromptBuilder Ctx :=
  match b.nodes.findIdx? (fun n => nodeMatchesId n s.id) with
  | some i => ⟨b.nodes.set i (.sec s)⟩
  | none => ⟨b.nodes ++ [.sec s]⟩

/-- `PromptBuilder.useOneOf`: always appends a fresh alternative set. -/
def useOneOf {Ctx : Type} (b : PromptBuilder Ctx)
    (candidates : List (PromptSection Ctx)) : PromptBuilder Ctx :=
  ⟨b.nodes ++ [.oneOf candidates]⟩

/-- `PromptBuilder.group`: run `configure` on a fresh builder, wrap its
nodes in a group, then replace-in-place or append like `use`. -/
def group {Ctx : Type} (b : PromptBuilder Ctx) (id : String)
    (configure : PromptBuilder Ctx → PromptBuilder Ctx) : PromptBuilder Ctx :=
  let inner := configure ⟨[]⟩
  match b.nodes.findIdx? (fun n => nodeMatchesId n id) with
  | some i => ⟨b.nodes.set i (.group id inner.nodes)⟩
  | none => ⟨b.nodes ++ [.group id inner.nodes]⟩

/-- `PromptBuilder.without` with a string ref (the object form just
projects out `.id` first). -/
def without {Ctx : Type} (b : PromptBuilder Ctx) (id : String) :
    PromptBuilder Ctx :=
  ⟨removeNode b.nodes id⟩

/-- `PromptBuilder.has` with a string ref. -/
def has {Ctx : Type} (b : PromptBuilder Ctx) (id : String) : Bool :=
  hasNode b.nodes id

/-- `PromptBuilder.ids`. -/
def ids {Ctx : Type} (b : PromptBuilder Ctx) : List String :=
  collectIds b.nodes

/-- `PromptBuilder.fork`. -/
def fork {Ctx : Type} (b : PromptBuilder Ctx) : PromptBuilder Ctx :=
  ⟨deepCopy b.nodes⟩

end PromptBuilder

/-- The lists pushed by one renderer call: `parts`, `included`, `excluded`
in push order. -/
structure RenderOut where
  parts : List String
  included : List String
  excluded : List String
deriving DecidableEq, Repr

/-- Sequencing two renderer calls concatenates what each pushed. -/
def RenderOut.append (a b : RenderOut) : RenderOut :=
  ⟨a.parts ++ b.parts, a.included ++ b.included, a.excluded ++ b.excluded⟩

/-- `assertNever` from `src/builder.ts`: the thrown error, as `Except`. -/
def assertNever {α : Type} (value : String) : Except String α :=
  .error ("Unexpected format: " ++ value)

/-- `formatSection` from `src/builder.ts`, with the format selector as its
runtime string value. -/
def formatSection (id content format : String) : Except String String :=
  match format with
  | "text" => .ok content
  | "xml" => .ok ("<" ++ id ++ ">\n" ++ content ++ "\n</" ++ id ++ ">")
  | _ => assertNever format

/-- `formatGroup` from `src/builder.ts`. -/
def formatGroup (id : String) (childParts : List String) (format : String) :
    Except String (List String) :=
  match format with
  | "text" => .ok childParts
  | "xml" =>
      .ok ["<" ++ id ++ ">\n" ++ String.intercalate "\n\n" childParts ++ "\n</" ++ id ++ ">"]
  | _ => assertNever format

/-- `section.when && !section.when(ctx)` is false exactly when the guard
passes (absent guards pass). -/
def passesGuard {Ctx : Type} (s : PromptSection Ctx) (ctx : Ctx) : Bool :=
  match s.when with
  | some w => w ctx
  | none => true

/-- `renderSection` from `src/builder.ts`: the returned `Bool` is the TS
return value, the `RenderOut` is what the call pushed. -/
def renderSection {Ctx : Type} (s : PromptSection Ctx) (ctx : Ctx)
    (format : String) : Except String (Bool × RenderOut) :=
  if !passesGuard s ctx then
    .ok (false, ⟨[], [], [s.id]⟩)
  else
    let output := s.render ctx
    if output != "" then do
      let f ← formatSection s.id output format
      pure (true, ⟨[f], [s.id], []⟩)
    else
      .ok (false, ⟨[], [], [s.id]⟩)

/-- The candidate loop of `renderOneOf`, with `found` as loop state. Once
`found` is set, later candidates are pushed to `excluded` without their
guard or render being consulted. -/
def renderOneOfGo {Ctx : Type} (ctx : Ctx) (format : String) :
    List (PromptSection Ctx) → Bool → Except String RenderOut
  | [], _ => .ok ⟨[], [], []⟩
  | c :: cs, found =>
    if found then do
      let r ← renderOneOfGo ctx format cs found
      pure (RenderOut.append ⟨[], [], [c.id]⟩ r)
    else do
      let br ← renderSection c ctx format
      let r ← renderOneOfGo ctx format cs br.1
      pure (br.2.append r)

/-- `renderOneOf` from `src/builder.ts`. -/
def renderOneOf {Ctx : Type} (candidates : List (PromptSection Ctx))
    (ctx : Ctx) (format : String) : Except String RenderOut :=
  renderOneOfGo ctx format candidates false

/-- What a group node itself contributes once its children produced
`co`: wrap the child parts when there are any, else nothing; the
`included`/`excluded` pushes of the children stand either way. -/
def groupContribution (gid : String) (co : RenderOut) (format : String) :
    Except String RenderOut :=
  if co.parts.length > 0 then do
    let gp ← formatGroup gid co.parts format
    pure (⟨gp, co.included, co.excluded⟩ : RenderOut)
  else
    .ok ⟨[], co.included, co.excluded⟩

/-- `renderNodes` from `src/builder.ts`: the loop over the node list,
with each iteration's pushes concatenated in order. `parts` holds this
level's fragments, while `included`/`excluded` accumulate across all
levels. -/
def renderNodes {Ctx : Type} :
    List (PromptNode Ctx) → Ctx → String → Except String RenderOut
  | [], _, _ => .ok ⟨[], [], []⟩
  | .sec s :: ns, ctx, format => do
      let br ← renderSection s ctx format
      let rest ← renderNodes ns ctx format
      pure (br.2.append rest)
  | .group gid children :: ns, ctx, format => do
      let co ← renderNodes children ctx format
      let g ← groupContribution gid co format
      let rest ← renderNodes ns ctx format
      pure (g.append rest)
  | .oneOf cands :: ns, ctx, format => do
      let r ← renderOneOf cands ctx format
      let rest ← renderNodes ns ctx format
      pure (r.append rest)

/-- JS `String.prototype.trim`: drop leading and trailing whitespace.
Written over the character list so that it evaluates by kernel
reduction. -/
def jsTrim (s : String) : String :=
  ⟨((s.data.dropWhile Char.isWhitespace).reverse.dropWhile Char.isWhitespace).reverse⟩

/-- The record returned by `buildWithMeta`. -/
structure BuildMeta where
  prompt : String
  included : List String
  excluded : List String
deriving DecidableEq, Repr

/-- `PromptBuilder.buildWithMeta`; `formatOption` is `options?.format` and
defaults to `"text"` via `?? 'text'`. -/
def PromptBuilder.buildWithMeta {Ctx : Type} (b : PromptBuilder Ctx) (ctx : Ctx)
    (formatOption : Option String) : Except String BuildMeta := do
  let format := formatOption.getD "text"
  let r ← renderNodes b.nodes ctx format
  pure ⟨jsTrim (String.intercalate "\n\n" r.parts), r.included, r.excluded⟩

/-- `PromptBuilder.build`. -/
def PromptBuilder.build {Ctx : Type} (b : PromptBuilder Ctx) (ctx : Ctx)
    (formatOption : Option String) : Except String String :=
  (b.buildWithMeta ctx formatOption).map (fun m => m.prompt)

/-! Spec-side definitions: traversals and tree predicates transcribed
from the specification's wording, to be compared with the code-side
functions above. -/

mutual

/-- Transcribed from the spec's `ids()` clause: a Section contributes its
own id; a Group contributes its own id immediately followed by the ids
produced by recursing into its children; an Alternative-set contributes
the ids of all its candidates in candidate order and no id of its own. -/
def specNodeIds {Ctx : Type} : PromptNode Ctx → List String
  | .sec s => [s.id]
  | .group gid children => gid :: specIdsList children
  | .oneOf cands => cands.map (fun c => c.id)

/-- Depth-first, left-to-right concatenation of `specNodeIds`. -/
def specIdsList {Ctx : Type} : List (PromptNode Ctx) → List String
  | [] => []
  | n :: ns => specNodeIds n ++ specIdsList ns

end

/-- Depth-first sequence of the section ids only (group ids omitted,
alternative-set candidates kept): the spec's "ids() restricted to
sections". -/
def dfSectionIds {Ctx : Type} : List (PromptNode Ctx) → List String
  | [] => []
  | .sec s :: ns => s.id :: dfSectionIds ns
  | .group _ children :: ns => dfSectionIds children ++ dfSectionIds ns
  | .oneOf cands :: ns => cands.map (fun c => c.id) ++ dfSectionIds ns

/-- Depth-first sequence of the rendered section fragments. The oneOf
case is irrelevant below: it is only used under a `noOneOf` hypothesis. -/
def dfRenders {Ctx : Type} : List (PromptNode Ctx) → Ctx → List String
  | [], _ => []
  | .sec s :: ns, ctx => s.render ctx :: dfRenders ns ctx
  | .group _ children :: ns, ctx => dfRenders children ctx ++ dfRenders ns ctx
  | .oneOf _ :: ns, ctx => dfRenders ns ctx

/-- No alternative-set occurs anywhere in the tree. -/
def noOneOf {Ctx : Type} : List (PromptNode Ctx) → Bool
  | [] => true
  | .sec _ :: ns => noOneOf ns
  | .group _ children :: ns => noOneOf children && noOneOf ns
  | .oneOf _ :: _ => false

/-- No section anywhere in the tree carries a `when` guard. -/
def noGuards {Ctx : Type} : List (PromptNode Ctx) → Bool
  | [] => true
  | .sec s :: ns => s.when.isNone && noGuards ns
  | .group _ children :: ns => noGuards children && noGuards ns
  | .oneOf cands :: ns => cands.all (fun c => c.when.isNone) && noGuards ns

/-- Every section's render is non-empty under `ctx`, at every depth. -/
def allRenderNonEmpty {Ctx : Type} : List (PromptNode Ctx) → Ctx → Bool
  | [], _ => true
  | .sec s :: ns, ctx => s.render ctx != "" && allRenderNonEmpty ns ctx
  | .group _ children :: ns, ctx =>
      allRenderNonEmpty children ctx && allRenderNonEmpty ns ctx
  | .oneOf cands :: ns, ctx =>
      cands.all (fun c => c.render ctx != "") && allRenderNonEmpty ns ctx

/-- No alternative-set anywhere in the tree has an empty candidate
list. -/
def noEmptyOneOf {Ctx : Type} : List (PromptNode Ctx) → Bool
  | [] => true
  | .sec _ :: ns => noEmptyOneOf ns
  | .group _ children :: ns => noEmptyOneOf children && noEmptyOneOf ns
  | .oneOf cands :: ns => cands.length > 0 && noEmptyOneOf ns

/-! Basic lemmas about the tree operations and the `Except` plumbing. -/

theorem except_ok_bind {ε α β : Type} (a : α) (f : α → Except ε β) :
    (Except.ok a : Except ε α) >>= f = f a := rfl

theorem except_error_bind {ε α β : Type} (e : ε) (f : α → Except ε β) :
    (Except.error e : Except ε α) >>= f = Except.error e := rfl

theorem except_pure {ε α : Type} (a : α) : (pure a : Except ε α) = .ok a := rfl

theorem RenderOut.append_empty (r : RenderOut) : r.append ⟨[], [], []⟩ = r := by
  cases r
  simp [RenderOut.append]

theorem RenderOut.empty_append (r : RenderOut) :
    (RenderOut.append ⟨[], [], []⟩ r) = r := by
  cases r
  simp [RenderOut.append]

theorem RenderOut.append_assoc (a b c : RenderOut) :
    (a.append b).append c = a.append (b.append c) := by
  cases a
  cases b
  cases c
  simp [RenderOut.append]

theorem hasNode_iff_mem_collectIds {Ctx : Type}
    (nodes : List (PromptNode Ctx)) (id : String) :
    hasNode nodes id = true ↔ id ∈ collectIds nodes := by
  induction nodes, id using hasNode.induct with
  | case1 id => simp [hasNode, collectIds]
  | case2 s ns id ih =>
      rw [hasNode, collectIds]
      simp [ih, @eq_comm _ s.id id]
  | case3 gid children ns id ih1 ih2 =>
      rw [hasNode, collectIds]
      simp [ih1, ih2, @eq_comm _ gid id, or_assoc]
  | case4 cands ns id ih =>
      rw [hasNode, collectIds]
      simp only [Bool.or_eq_true, List.any_eq_true, beq_iff_eq, ih,
        List.mem_append, List.mem_map]

theorem collectIds_eq_specIdsList {Ctx : Type} (nodes : List (PromptNode Ctx)) :
    collectIds nodes = specIdsList nodes := by
  induction nodes using collectIds.induct with
  | case1 => simp [collectIds, specIdsList]
  | case2 s ns ih => simp [collectIds, specIdsList, specNodeIds, ih]
  | case3 gid children ns ih1 ih2 =>
      simp [collectIds, specIdsList, specNodeIds, ih1, ih2]
  | case4 cands ns ih => simp [collectIds, specIdsList, specNodeIds, ih]

theorem hasNode_removeNode {Ctx : Type}
    (nodes : List (PromptNode Ctx)) (id : String) :
    hasNode (removeNode nodes id) id = false := by
  induction nodes, id using removeNode.induct with
  | case1 id => simp [removeNode, hasNode]
  | case2 s ns id hne ih =>
      simp only [removeNode, hne, if_true, hasNode, ih]
      simpa using hne
  | case3 s ns id hne ih => simp [removeNode, hne, ih]
  | case4 gid children ns id hne ih1 ih2 =>
      simp only [removeNode, hne, if_true, hasNode, ih1, ih2]
      simpa using hne
  | case5 gid children ns id hne ih => simp [removeNode, hne, ih]
  | case6 cands ns id remaining hlen ih =>
      simp only [removeNode]
      rw [if_pos hlen]
      simp only [hasNode, ih, Bool.or_false]
      rw [List.any_eq_false]
      intro c hc
      have := List.of_mem_filter hc
      simpa using this
  | case7 cands ns id remaining hlen ih =>
      simp only [removeNode]
      rw [if_neg hlen]
      exact ih

theorem collectIds_append {Ctx : Type} (a b : List (PromptNode Ctx)) :
    collectIds (a ++ b) = collectIds a ++ collectIds b := by
  induction a using collectIds.induct with
  | case1 => simp [collectIds]
  | case2 s ns ih => simp [collectIds, ih]
  | case3 gid children ns ih1 ih2 => simp [collectIds, ih1, ih2]
  | case4 cands ns ih => simp [collectIds, ih]

theorem hasNode_append {Ctx : Type} (a b : List (PromptNode Ctx)) (id : String) :
    hasNode (a ++ b) id = (hasNode a id || hasNode b id) := by
  induction a, id using hasNode.induct with
  | case1 id => simp [hasNode]
  | case2 s ns id ih => simp [hasNode, ih, Bool.or_assoc]
  | case3 gid children ns id ih1 ih2 => simp [hasNode, ih2, Bool.or_assoc]
  | case4 cands ns id ih => simp [hasNode, ih, Bool.or_assoc]

theorem hasNode_set_sec {Ctx : Type} (nodes : List (PromptNode Ctx))
    (i : Nat) (s : PromptSection Ctx) (h : i < nodes.length) :
    hasNode (nodes.set i (.sec s)) s.id = true := by
  induction nodes generalizing i with
  | nil => simp at h
  | cons n ns ih =>
      cases i with
      | zero => simp [hasNode]
      | succ i =>
          have hi : i < ns.length := by simpa using h
          cases n <;> simp [hasNode, ih i hi]

theorem use_has {Ctx : Type} (b : PromptBuilder Ctx) (s : PromptSection Ctx) :
    (b.use s).has s.id = true := by
  rw [PromptBuilder.use]
  cases hf : b.nodes.findIdx? (fun n => nodeMatchesId n s.id) with
  | none =>
      simp only [PromptBuilder.has, hasNode_append]
      simp [hasNode]
  | some i =>
      have hi : i < b.nodes.length :=
        (List.findIdx?_eq_some_iff_findIdx_eq.mp hf).1
      simpa [PromptBuilder.has] using hasNode_set_sec b.nodes i s hi

theorem deepCopy_eq {Ctx : Type} (nodes : List (PromptNode Ctx)) :
    deepCopy nodes = nodes := by
  induction nodes using deepCopy.induct with
  | case1 => simp [deepCopy]
  | case2 s ns ih => simp [deepCopy, ih]
  | case3 gid children ns ih1 ih2 => simp [deepCopy, ih1, ih2]
  | case4 cands ns ih => simp [deepCopy, ih]

theorem noEmptyOneOf_removeNode {Ctx : Type}
    (nodes : List (PromptNode Ctx)) (id : String) :
    noEmptyOneOf (removeNode nodes id) = true := by
  induction nodes, id using removeNode.induct with
  | case1 id => simp [removeNode, noEmptyOneOf]
  | case2 s ns id hne ih => simp [removeNode, hne, noEmptyOneOf, ih]
  | case3 s ns id hne ih => rw [removeNode, if_neg hne]; exact ih
  | case4 gid children ns id hne ih1 ih2 =>
      simp [removeNode, hne, noEmptyOneOf, ih1, ih2]
  | case5 gid children ns id hne ih => rw [removeNode, if_neg hne]; exact ih
  | case6 cands ns id remaining hlen ih =>
      rw [removeNode, if_pos hlen]
      simp [noEmptyOneOf, hlen, ih]
  | case7 cands ns id remaining hlen ih =>
      rw [removeNode, if_neg hlen]
      exact ih

theorem removeNode_of_not_found {Ctx : Type} :
    ∀ (nodes : List (PromptNode Ctx)) (id : String),
    noEmptyOneOf nodes = true → hasNode nodes id = false →
    removeNode nodes id = nodes := by
  intro nodes id
  induction nodes, id using removeNode.induct with
  | case1 id => intro _ _; simp [removeNode]
  | case2 s ns id hne ih =>
      intro hclean h
      rw [hasNode, Bool.or_eq_false_iff] at h
      rw [removeNode, if_pos hne, ih (by simpa [noEmptyOneOf] using hclean) h.2]
  | case3 s ns id hne ih =>
      intro hclean h
      rw [hasNode, Bool.or_eq_false_iff] at h
      simp at hne
      simp [hne] at h
  | case4 gid children ns id hne ih1 ih2 =>
      intro hclean h
      rw [hasNode, Bool.or_eq_false_iff, Bool.or_eq_false_iff] at h
      rw [noEmptyOneOf, Bool.and_eq_true] at hclean
      rw [removeNode, if_pos hne, ih1 hclean.1 h.1.2, ih2 hclean.2 h.2]
  | case5 gid children ns id hne ih =>
      intro hclean h
      rw [hasNode, Bool.or_eq_false_iff, Bool.or_eq_false_iff] at h
      simp at hne
      simp [hne] at h
  | case6 cands ns id remaining hlen ih =>
      intro hclean h
      rw [hasNode, Bool.or_eq_false_iff] at h
      rw [noEmptyOneOf, Bool.and_eq_true] at hclean
      have hall : ∀ c ∈ cands, (c.id != id) = true := by
        intro c hc
        have := List.any_eq_false.mp h.1 c hc
        simpa using this
      have hfil : List.filter (fun c => c.id != id) cands = cands :=
        List.filter_eq_self.mpr hall
      rw [removeNode]
      show (if remaining.length > 0 then _ else _) = _
      rw [if_pos hlen]
      rw [hfil, ih hclean.2 h.2]
  | case7 cands ns id remaining hlen ih =>
      intro hclean h
      rw [hasNode, Bool.or_eq_false_iff] at h
      rw [noEmptyOneOf, Bool.and_eq_true] at hclean
      have hall : ∀ c ∈ cands, (c.id != id) = true := by
        intro c hc
        have := List.any_eq_false.mp h.1 c hc
        simpa using this
      have hfil : List.filter (fun c => c.id != id) cands = cands :=
        List.filter_eq_self.mpr hall
      have hpos : cands.length > 0 := by simpa using hclean.1
      have hlen' : ¬(List.filter (fun c => c.id != id) cands).length > 0 := hlen
      rw [hfil] at hlen'
      exact absurd hpos hlen'

/-- C10: `has(id)` is true exactly when `id` occurs in `ids()`, and right
after `without(id)` the id is gone: `has(id)` is false. -/
theorem has_iff_mem_ids_and_without_clears {Ctx : Type}
    (b : PromptBuilder Ctx) (id : String) :
    (b.has id = true ↔ id ∈ b.ids) ∧ (b.without id).has id = false := by
  refine ⟨hasNode_iff_mem_collectIds b.nodes id, ?_⟩
  exact hasNode_removeNode b.nodes id

/-- C4: `ids()` returns exactly the depth-first, left-to-right id
sequence described by the spec: a Section contributes its own id, a
Group its own id then its children's recursively, an Alternative-set its
candidates' ids in order and no id of its own. -/
theorem ids_eq_depth_first_spec {Ctx : Type} (b : PromptBuilder Ctx) :
    b.ids = specIdsList b.nodes :=
  collectIds_eq_specIdsList b.nodes

/-- C5: forking is an independent deep copy: with no further mutation the
fork's `ids()` equals the original's (order and contents), `has` agrees on
every id, adding a fresh section to the fork makes it visible there while
the original still lacks it, and removing an id present in the original
from the fork clears it from the fork while the original keeps it. -/
theorem fork_independence_and_roundtrip {Ctx : Type} (b : PromptBuilder Ctx)
    (x : PromptSection Ctx) (y z : String) :
    ((b.fork).ids = b.ids) ∧ ((b.fork).has z = b.has z) ∧
    (b.has x.id = false →
      ((b.fork).use x).has x.id = true ∧ b.has x.id = false) ∧
    (b.has y = true →
      ((b.fork).without y).has y = false ∧ b.has y = true) := by
  have hd : b.fork = b := by
    cases b
    simp [PromptBuilder.fork, deepCopy_eq]
  rw [hd]
  exact ⟨rfl, rfl, fun h => ⟨use_has b x, h⟩,
    fun h => ⟨hasNode_removeNode b.nodes y, h⟩⟩

theorem fork_independence_witness :
    ((⟨[PromptNode.sec ⟨"a", none, fun _ => "A", none⟩]⟩ :
        PromptBuilder Unit).has "x" = false) ∧
    ((((⟨[PromptNode.sec ⟨"a", none, fun _ => "A", none⟩]⟩ :
        PromptBuilder Unit).fork).use ⟨"x", none, fun _ => "X", none⟩).has "x" = true) ∧
    ((((⟨[PromptNode.sec ⟨"a", none, fun _ => "A", none⟩]⟩ :
        PromptBuilder Unit).fork).without "a").has "a" = false) := by
  have h := fork_independence_and_roundtrip
    (⟨[PromptNode.sec ⟨"a", none, fun _ => "A", none⟩]⟩ : PromptBuilder Unit)
    ⟨"x", none, fun _ => "X", none⟩ "a" "a"
  have hx : (⟨[PromptNode.sec ⟨"a", none, fun _ => "A", none⟩]⟩ :
      PromptBuilder Unit).has "x" = false := by
    simp [PromptBuilder.has, hasNode]
  have ha : (⟨[PromptNode.sec ⟨"a", none, fun _ => "A", none⟩]⟩ :
      PromptBuilder Unit).has "a" = true := by
    simp [PromptBuilder.has, hasNode]
  exact ⟨hx, (h.2.2.1 hx).1, (h.2.2.2 ha).1⟩

/-- C6 (amended): `without(id)` clears every occurrence of `id` at every
depth, never leaves an empty alternative-set behind, and — provided the
tree held no already-empty alternative-set — is exactly a no-op when the
id occurs nowhere. (On a tree that already contains an empty
alternative-set, an absent-id removal still drops that empty set, so the
unqualified no-op phrasing of the claim fails; see the counterexample.) -/
theorem remove_clears_prunes_and_noop {Ctx : Type} (b : PromptBuilder Ctx)
    (id : String) :
    ((b.without id).has id = false) ∧
    (noEmptyOneOf (b.without id).nodes = true) ∧
    (noEmptyOneOf b.nodes = true → b.has id = false → b.without id = b) := by
  refine ⟨hasNode_removeNode b.nodes id, noEmptyOneOf_removeNode b.nodes id, ?_⟩
  intro hclean h
  cases b
  simp only [PromptBuilder.without, PromptBuilder.mk.injEq]
  exact removeNode_of_not_found _ id hclean h

theorem remove_clears_prunes_and_noop_witness :
    ((⟨[PromptNode.sec ⟨"a", none, fun _ => "A", none⟩]⟩ :
        PromptBuilder Unit).has "z" = false) ∧
    ((⟨[PromptNode.sec ⟨"a", none, fun _ => "A", none⟩]⟩ :
        PromptBuilder Unit).without "z") =
      ⟨[PromptNode.sec ⟨"a", none, fun _ => "A", none⟩]⟩ := by
  have hz : (⟨[PromptNode.sec ⟨"a", none, fun _ => "A", none⟩]⟩ :
      PromptBuilder Unit).has "z" = false := by
    simp [PromptBuilder.has, hasNode]
  exact ⟨hz, (remove_clears_prunes_and_noop
    (⟨[PromptNode.sec ⟨"a", none, fun _ => "A", none⟩]⟩ : PromptBuilder Unit)
    "z").2.2 (by simp [noEmptyOneOf]) hz⟩

/-- C6 counterexample: on a tree holding an (already) empty
alternative-set, removing an id that occurs nowhere is not a no-op — the
empty alternative-set node is dropped, so the tree changes. -/
theorem remove_absent_id_not_noop :
    ((⟨[PromptNode.oneOf ([] : List (PromptSection Unit))]⟩ :
        PromptBuilder Unit).has "z" = false) ∧
    ((⟨[PromptNode.oneOf ([] : List (PromptSection Unit))]⟩ :
        PromptBuilder Unit).without "z").nodes = [] ∧
    ((⟨[PromptNode.oneOf ([] : List (PromptSection Unit))]⟩ :
        PromptBuilder Unit).without "z").nodes ≠
      (⟨[PromptNode.oneOf ([] : List (PromptSection Unit))]⟩ :
        PromptBuilder Unit).nodes := by
  have h : ((⟨[PromptNode.oneOf ([] : List (PromptSection Unit))]⟩ :
      PromptBuilder Unit).without "z").nodes = [] := by
    simp [PromptBuilder.without, removeNode]
  refine ⟨by simp [PromptBuilder.has, hasNode], h, ?_⟩
  rw [h]
  simp

/-- C1 (amended): `use` scans only the top level for a replace slot: when
no top-level non-oneOf node carries `s.id`, the section is appended at the
end (and, when the id occurred nowhere in the whole tree, the result holds
exactly one occurrence of it); when some top-level node matches, the first
matching position is overwritten in place. A same-id node nested inside a
group does not trigger replacement. -/
theorem use_top_level_replace_or_append {Ctx : Type} (b : PromptBuilder Ctx)
    (s : PromptSection Ctx) :
    ((∀ n ∈ b.nodes, nodeMatchesId n s.id = false) →
      (b.use s).nodes = b.nodes ++ [.sec s] ∧
      (hasNode b.nodes s.id = false → ((b.use s).ids).count s.id = 1)) ∧
    (∀ i, b.nodes.findIdx? (fun n => nodeMatchesId n s.id) = some i →
      (b.use s).nodes = b.nodes.set i (.sec s)) := by
  constructor
  · intro hnone
    have hf : b.nodes.findIdx? (fun n => nodeMatchesId n s.id) = none :=
      List.findIdx?_eq_none_iff.mpr (by simpa using hnone)
    have happ : (b.use s).nodes = b.nodes ++ [.sec s] := by
      rw [PromptBuilder.use, hf]
    refine ⟨happ, fun habs => ?_⟩
    have hmem : s.id ∉ collectIds b.nodes := by
      intro hmem
      rw [(hasNode_iff_mem_collectIds b.nodes s.id).mpr hmem] at habs
      simp at habs
    rw [PromptBuilder.ids, happ, collectIds_append]
    simp [collectIds, List.count_append, List.count_eq_zero.mpr hmem]
  · intro i hf
    rw [PromptBuilder.use, hf]

theorem use_top_level_witness :
    (((⟨[PromptNode.sec ⟨"a", none, fun _ => "A", none⟩]⟩ :
        PromptBuilder Unit).use ⟨"x", none, fun _ => "X", none⟩).nodes =
      [PromptNode.sec ⟨"a", none, fun _ => "A", none⟩,
       PromptNode.sec ⟨"x", none, fun _ => "X", none⟩]) ∧
    ((((⟨[PromptNode.sec ⟨"a", none, fun _ => "A", none⟩]⟩ :
        PromptBuilder Unit).use ⟨"x", none, fun _ => "X", none⟩).ids).count "x" = 1) := by
  have h := (use_top_level_replace_or_append
    (⟨[PromptNode.sec ⟨"a", none, fun _ => "A", none⟩]⟩ : PromptBuilder Unit)
    ⟨"x", none, fun _ => "X", none⟩).1
    (by intro n hn; simp at hn; subst hn; simp [nodeMatchesId])
  exact ⟨h.1, h.2 (by simp [hasNode])⟩

/-- C1 counterexample: a section whose id exists only nested inside a
group is not replaced — `use` appends a new top-level section of the same
id, leaving a duplicate occurrence among the addressable ids. -/
theorem use_nested_id_duplicates :
    ((⟨[PromptNode.group "g" [PromptNode.sec ⟨"x", none, fun _ => "one", none⟩]]⟩ :
        PromptBuilder Unit).has "x" = true) ∧
    (((⟨[PromptNode.group "g" [PromptNode.sec ⟨"x", none, fun _ => "one", none⟩]]⟩ :
        PromptBuilder Unit).use ⟨"x", none, fun _ => "two", none⟩).ids =
      ["g", "x", "x"]) ∧
    ((((⟨[PromptNode.group "g" [PromptNode.sec ⟨"x", none, fun _ => "one", none⟩]]⟩ :
        PromptBuilder Unit).use ⟨"x", none, fun _ => "two", none⟩).ids).count "x" = 2) := by
  refine ⟨by simp [PromptBuilder.has, hasNode], ?_, ?_⟩
  · simp [PromptBuilder.use, PromptBuilder.ids, nodeMatchesId, collectIds]
  · simp [PromptBuilder.use, PromptBuilder.ids, nodeMatchesId, collectIds]

/-- C8: under `xml` format the `tools` group holding sections `bash` and
`git` renders to exactly the spec's string; in general a section's xml
fragment is its content wrapped in `<id>`/`</id>` on their own lines, and
a group's xml fragment is its children's fragments joined with a blank
line and wrapped the same way. -/
theorem xml_scenario_and_format_rules :
    (((⟨[]⟩ : PromptBuilder Unit).group "tools"
        (fun b => (b.use ⟨"bash", none, fun _ => "Bash tools", none⟩).use
          ⟨"git", none, fun _ => "Git tools", none⟩)).build () (some "xml") =
      .ok "<tools>\n<bash>\nBash tools\n</bash>\n\n<git>\nGit tools\n</git>\n</tools>") ∧
    (∀ id content : String, formatSection id content "xml" =
      .ok ("<" ++ id ++ ">\n" ++ content ++ "\n</" ++ id ++ ">")) ∧
    (∀ (id : String) (childParts : List String), formatGroup id childParts "xml" =
      .ok ["<" ++ id ++ ">\n" ++ String.intercalate "\n\n" childParts ++ "\n</" ++ id ++ ">"]) := by
  refine ⟨?_, fun id content => rfl, fun id childParts => rfl⟩
  have hnil : renderNodes ([] : List (PromptNode Unit)) () "xml" = .ok ⟨[], [], []⟩ := by
    rw [renderNodes]
  have hgit : renderNodes [PromptNode.sec ⟨"git", none, fun _ => "Git tools", none⟩] () "xml" =
      .ok ⟨["<git>\nGit tools\n</git>"], ["git"], []⟩ := by
    rw [renderNodes, hnil]
    rfl
  have hch : renderNodes [PromptNode.sec ⟨"bash", none, fun _ => "Bash tools", none⟩,
      PromptNode.sec ⟨"git", none, fun _ => "Git tools", none⟩] () "xml" =
      .ok ⟨["<bash>\nBash tools\n</bash>", "<git>\nGit tools\n</git>"], ["bash", "git"], []⟩ := by
    rw [renderNodes, hgit]
    rfl
  have htop : renderNodes [PromptNode.group "tools"
      [PromptNode.sec ⟨"bash", none, fun _ => "Bash tools", none⟩,
       PromptNode.sec ⟨"git", none, fun _ => "Git tools", none⟩]] () "xml" =
      .ok ⟨["<tools>\n<bash>\nBash tools\n</bash>\n\n<git>\nGit tools\n</git>\n</tools>"],
        ["bash", "git"], []⟩ := by
    rw [renderNodes, hch, hnil]
    rfl
  show Except.map (fun (m : BuildMeta) => m.prompt)
      ((renderNodes [PromptNode.group "tools"
        [PromptNode.sec ⟨"bash", none, fun _ => "Bash tools", none⟩,
         PromptNode.sec ⟨"git", none, fun _ => "Git tools", none⟩]] () "xml").bind
        (fun (r : RenderOut) => Except.ok (⟨jsTrim (String.intercalate "\n\n" r.parts),
          r.included, r.excluded⟩ : BuildMeta))) =
      Except.ok "<tools>\n<bash>\nBash tools\n</bash>\n\n<git>\nGit tools\n</git>\n</tools>"
  rw [htop]
  rfl

/-- C3: in an alternative-set `[A, B, C]` where `A`'s guard fails and `B`
renders non-empty, exactly `B` is included and contributes the sole
fragment, while `A` and `C` are excluded. The conclusion does not depend
on `C`'s guard or render functions, which are universally quantified:
candidates after the first winner are excluded without being evaluated. -/
theorem oneOf_first_winner_excludes_rest {Ctx : Type} (ctx : Ctx)
    (A B C : PromptSection Ctx)
    (hA : passesGuard A ctx = false)
    (hB : passesGuard B ctx = true) (hBr : B.render ctx ≠ "")
    (hCr : C.render ctx ≠ "") :
    renderOneOf [A, B, C] ctx "text" =
      .ok ⟨[B.render ctx], [B.id], [A.id, C.id]⟩ := by
  simp [renderOneOf, renderOneOfGo, renderSection, hA, hB, hBr, formatSection,
    RenderOut.append, except_ok_bind, except_pure]

theorem oneOf_first_winner_witness :
    renderOneOf [(⟨"A", some (fun _ => false), fun _ => "aa", none⟩ : PromptSection Unit),
      ⟨"B", none, fun _ => "bb", none⟩, ⟨"C", none, fun _ => "cc", none⟩] () "text" =
      .ok ⟨["bb"], ["B"], ["A", "C"]⟩ :=
  oneOf_first_winner_excludes_rest ()
    ⟨"A", some (fun _ => false), fun _ => "aa", none⟩
    ⟨"B", none, fun _ => "bb", none⟩
    ⟨"C", none, fun _ => "cc", none⟩
    (by simp [passesGuard]) (by simp [passesGuard]) (by simp) (by simp)

/-- Sequencing of two renderer results: propagate the first error, else
concatenate the pushes. `renderNodes` over `++` decomposes through it. -/
def seqRender (x y : Except String RenderOut) : Except String RenderOut := do
  let a ← x
  let b ← y
  pure (a.append b)

theorem seqRender_ok_empty_left (y : Except String RenderOut) :
    seqRender (.ok ⟨[], [], []⟩) y = y := by
  cases y with
  | error e => rfl
  | ok r => simp [seqRender, except_ok_bind, except_pure, RenderOut.empty_append]

theorem groupContribution_text (gid : String) (co : RenderOut) :
    groupContribution gid co "text" = .ok co := by
  cases co with
  | mk parts included excluded =>
      rw [groupContribution]
      by_cases h : parts.length > 0
      · rw [if_pos h]
        simp [formatGroup, except_ok_bind, except_pure]
      · rw [if_neg h]
        have : parts = [] := List.eq_nil_of_length_eq_zero (Nat.eq_zero_of_not_pos h)
        rw [this]

theorem renderNodes_append {Ctx : Type} :
    ∀ (a b : List (PromptNode Ctx)) (ctx : Ctx) (fmt : String),
    renderNodes (a ++ b) ctx fmt =
      seqRender (renderNodes a ctx fmt) (renderNodes b ctx fmt) := by
  intro a b ctx fmt
  induction a, ctx, fmt using renderNodes.induct with
  | case1 ctx fmt =>
      rw [List.nil_append]
      rw [show renderNodes ([] : List (PromptNode Ctx)) ctx fmt = .ok ⟨[], [], []⟩ from by
        simp [renderNodes]]
      rw [seqRender_ok_empty_left]
  | case2 s ns ctx fmt ih =>
      rw [List.cons_append, renderNodes]
      conv_rhs => rw [renderNodes]
      rw [ih]
      cases h1 : renderSection s ctx fmt with
      | error e => simp [seqRender, except_error_bind]
      | ok br =>
          cases h2 : renderNodes ns ctx fmt with
          | error e => simp [seqRender, except_ok_bind, except_error_bind]
          | ok r2 =>
              cases h3 : renderNodes b ctx fmt with
              | error e =>
                  simp [seqRender, except_ok_bind, except_error_bind, except_pure]
              | ok r3 =>
                  simp [seqRender, except_ok_bind, except_pure,
                    RenderOut.append_assoc]
  | case3 gid children ns ctx fmt ih1 ih2 =>
      rw [List.cons_append, renderNodes]
      conv_rhs => rw [renderNodes]
      rw [ih2]
      cases h1 : renderNodes children ctx fmt with
      | error e => simp [seqRender, except_error_bind]
      | ok co =>
          cases hg : groupContribution gid co fmt with
          | error e => simp [hg, seqRender, except_ok_bind, except_error_bind]
          | ok g =>
              cases h2 : renderNodes ns ctx fmt with
              | error e =>
                  simp [hg, h2, seqRender, except_ok_bind, except_error_bind]
              | ok r2 =>
                  cases h3 : renderNodes b ctx fmt with
                  | error e =>
                      simp [hg, h2, h3, seqRender, except_ok_bind,
                        except_error_bind, except_pure]
                  | ok r3 =>
                      simp [hg, h2, h3, seqRender, except_ok_bind, except_pure,
                        RenderOut.append_assoc]
  | case4 cands ns ctx fmt ih =>
      rw [List.cons_append, renderNodes]
      conv_rhs => rw [renderNodes]
      rw [ih]
      cases h1 : renderOneOf cands ctx fmt with
      | error e => simp [seqRender, except_error_bind]
      | ok r1 =>
          cases h2 : renderNodes ns ctx fmt with
          | error e => simp [seqRender, except_ok_bind, except_error_bind]
          | ok r2 =>
              cases h3 : renderNodes b ctx fmt with
              | error e =>
                  simp [seqRender, except_ok_bind, except_error_bind, except_pure]
              | ok r3 =>
                  simp [seqRender, except_ok_bind, except_pure,
                    RenderOut.append_assoc]

theorem renderNodes_singleton_group_text {Ctx : Type} (gid : String)
    (ch : List (PromptNode Ctx)) (ctx : Ctx) :
    renderNodes [PromptNode.group gid ch] ctx "text" = renderNodes ch ctx "text" := by
  rw [renderNodes]
  cases h : renderNodes ch ctx "text" with
  | error e => simp [except_error_bind]
  | ok co =>
      rw [show renderNodes ([] : List (PromptNode Ctx)) ctx "text" = .ok ⟨[], [], []⟩ from by
        simp [renderNodes]]
      simp [groupContribution_text, except_ok_bind, except_pure,
        RenderOut.append_empty]

/-- C7: in `text` format a group is fully transparent — rendering a tree
with `group gid ch` spliced at some position equals rendering the same
tree with `ch` inlined at that position (fragments, included and excluded
lists alike); and, in any format, a group all of whose children were
excluded contributes no fragment and does not add its own id to the
included or excluded lists. -/
theorem group_transparency_and_empty_omission {Ctx : Type} :
    (∀ (pre ch post : List (PromptNode Ctx)) (gid : String) (ctx : Ctx),
      renderNodes (pre ++ [PromptNode.group gid ch] ++ post) ctx "text" =
        renderNodes (pre ++ ch ++ post) ctx "text") ∧
    (∀ (gid : String) (ch : List (PromptNode Ctx)) (ctx : Ctx) (fmt : String)
      (co : RenderOut), renderNodes ch ctx fmt = .ok co → co.parts = [] →
      renderNodes [PromptNode.group gid ch] ctx fmt =
        .ok ⟨[], co.included, co.excluded⟩) := by
  constructor
  · intro pre ch post gid ctx
    simp only [List.append_assoc, renderNodes_append,
      renderNodes_singleton_group_text]
  · intro gid ch ctx fmt co h hp
    rw [renderNodes, h, except_ok_bind]
    rw [groupContribution]
    rw [hp]
    simp only [List.length_nil, gt_iff_lt, Nat.lt_irrefl, if_false]
    rw [show renderNodes ([] : List (PromptNode Ctx)) ctx fmt = .ok ⟨[], [], []⟩ from by
      simp [renderNodes]]
    simp [except_ok_bind, except_pure, RenderOut.append, RenderOut.append_empty]

theorem group_empty_omission_witness :
    renderNodes [PromptNode.group "tools"
      [PromptNode.sec ⟨"bash", some (fun _ => false), fun _ => "hidden", none⟩]] () "xml" =
      .ok ⟨[], [], ["bash"]⟩ := by
  have h := group_transparency_and_empty_omission.2 "tools"
    [PromptNode.sec ⟨"bash", some (fun _ => false), fun _ => "hidden", none⟩] () "xml"
    ⟨[], [], ["bash"]⟩
    (by simp [renderNodes, renderSection, passesGuard, except_ok_bind, except_pure,
      RenderOut.append])
    rfl
  exact h

theorem formatSection_bad_format (id content fmt : String)
    (h1 : fmt ≠ "text") (h2 : fmt ≠ "xml") :
    formatSection id content fmt = .error ("Unexpected format: " ++ fmt) := by
  unfold formatSection
  split
  · exact absurd rfl h1
  · exact absurd rfl h2
  · rfl

theorem renderSection_bad_format {Ctx : Type} (s : PromptSection Ctx)
    (ctx : Ctx) (fmt : String) (h1 : fmt ≠ "text") (h2 : fmt ≠ "xml") :
    renderSection s ctx fmt = .error ("Unexpected format: " ++ fmt) ∨
    ∃ br, renderSection s ctx fmt = .ok br ∧
      br.2.parts = [] ∧ br.2.included = [] := by
  rw [renderSection]
  cases hgb : passesGuard s ctx with
  | false => right; exact ⟨(false, ⟨[], [], [s.id]⟩), rfl, rfl, rfl⟩
  | true =>
      simp only [Bool.not_true, Bool.false_eq_true, if_false]
      by_cases hout : s.render ctx != ""
      · rw [if_pos hout, formatSection_bad_format s.id _ fmt h1 h2,
          except_error_bind]
        left
        rfl
      · rw [if_neg hout]
        right
        exact ⟨(false, ⟨[], [], [s.id]⟩), rfl, rfl, rfl⟩

theorem renderOneOfGo_bad_format {Ctx : Type} (ctx : Ctx) (fmt : String)
    (h1 : fmt ≠ "text") (h2 : fmt ≠ "xml") :
    ∀ (cands : List (PromptSection Ctx)) (found : Bool),
    renderOneOfGo ctx fmt cands found = .error ("Unexpected format: " ++ fmt) ∨
    ∃ r, renderOneOfGo ctx fmt cands found = .ok r ∧
      r.parts = [] ∧ r.included = [] := by
  intro cands
  induction cands with
  | nil => intro found; right; exact ⟨⟨[], [], []⟩, by simp [renderOneOfGo], rfl, rfl⟩
  | cons c cs ih =>
      intro found
      rw [renderOneOfGo]
      cases found with
      | true =>
          simp only [if_true]
          rcases ih true with h | ⟨r, hr, hp, hi⟩
          · rw [h, except_error_bind]; left; rfl
          · rw [hr, except_ok_bind]
            right
            exact ⟨_, rfl, by simp [RenderOut.append, hp], by simp [RenderOut.append, hi]⟩
      | false =>
          simp only [Bool.false_eq_true, if_false]
          rcases renderSection_bad_format c ctx fmt h1 h2 with h | ⟨br, hbr, hp, hi⟩
          · rw [h, except_error_bind]; left; rfl
          · rw [hbr, except_ok_bind]
            rcases ih br.1 with h' | ⟨r, hr, hp', hi'⟩
            · rw [h', except_error_bind]; left; rfl
            · rw [hr, except_ok_bind]
              right
              exact ⟨_, rfl, by simp [RenderOut.append, hp, hp'],
                by simp [RenderOut.append, hi, hi']⟩

theorem renderNodes_bad_format {Ctx : Type} :
    ∀ (nodes : List (PromptNode Ctx)) (ctx : Ctx) (fmt : String),
    fmt ≠ "text" → fmt ≠ "xml" →
    (renderNodes nodes ctx fmt = .error ("Unexpected format: " ++ fmt) ∨
     ∃ r, renderNodes nodes ctx fmt = .ok r ∧
       r.parts = [] ∧ r.included = []) := by
  intro nodes ctx fmt
  induction nodes, ctx, fmt using renderNodes.induct with
  | case1 ctx fmt =>
      intro _ _
      right
      exact ⟨⟨[], [], []⟩, by simp [renderNodes], rfl, rfl⟩
  | case2 s ns ctx fmt ih =>
      intro h1 h2
      rw [renderNodes]
      rcases renderSection_bad_format s ctx fmt h1 h2 with h | ⟨br, hbr, hp, hi⟩
      · rw [h, except_error_bind]; left; rfl
      · rw [hbr, except_ok_bind]
        rcases ih h1 h2 with h' | ⟨r, hr, hp', hi'⟩
        · rw [h', except_error_bind]; left; rfl
        · rw [hr, except_ok_bind]
          right
          exact ⟨_, rfl, by simp [RenderOut.append, hp, hp'],
            by simp [RenderOut.append, hi, hi']⟩
  | case3 gid children ns ctx fmt ih1 ih2 =>
      intro h1 h2
      rw [renderNodes]
      rcases ih1 h1 h2 with h | ⟨co, hco, hp, hi⟩
      · rw [h, except_error_bind]; left; rfl
      · rw [hco, except_ok_bind]
        rw [groupContribution, hp]
        simp only [List.length_nil, gt_iff_lt, Nat.lt_irrefl, if_false]
        rw [except_ok_bind]
        rcases ih2 h1 h2 with h' | ⟨r, hr, hp', hi'⟩
        · rw [h', except_error_bind]; left; rfl
        · rw [hr, except_ok_bind]
          right
          exact ⟨_, rfl, by simp [RenderOut.append, hp'],
            by simp [RenderOut.append, hi, hi']⟩
  | case4 cands ns ctx fmt ih =>
      intro h1 h2
      rw [renderNodes]
      rcases renderOneOfGo_bad_format ctx fmt h1 h2 cands false with h | ⟨r1, hr1, hp, hi⟩
      · rw [renderOneOf, h, except_error_bind]; left; rfl
      · rw [renderOneOf, hr1, except_ok_bind]
        rcases ih h1 h2 with h' | ⟨r, hr, hp', hi'⟩
        · rw [h', except_error_bind]; left; rfl
        · rw [hr, except_ok_bind]
          right
          exact ⟨_, rfl, by simp [RenderOut.append, hp, hp'],
            by simp [RenderOut.append, hi, hi']⟩

/-- C9: a format selector outside {text, xml} makes the engine throw the
`assertNever` error the moment a fragment is formatted — it never falls
back to a default format — and a render pass under such a format never
returns partial output: it is either the error, or (when nothing at all
passed its guard and rendered non-empty, so no fragment was ever
formatted) a result with empty prompt and no included section. -/
theorem unknown_format_fails_loudly {Ctx : Type} (fmt : String)
    (h1 : fmt ≠ "text") (h2 : fmt ≠ "xml") :
    (∀ id content : String, formatSection id content fmt =
      .error ("Unexpected format: " ++ fmt)) ∧
    (∀ (b : PromptBuilder Ctx) (ctx : Ctx),
      b.buildWithMeta ctx (some fmt) = .error ("Unexpected format: " ++ fmt) ∨
      ∃ m, b.buildWithMeta ctx (some fmt) = .ok m ∧
        m.prompt = "" ∧ m.included = []) := by
  refine ⟨fun id content => formatSection_bad_format id content fmt h1 h2, ?_⟩
  intro b ctx
  rw [PromptBuilder.buildWithMeta]
  rcases renderNodes_bad_format b.nodes ctx fmt h1 h2 with h | ⟨r, hr, hp, hi⟩
  · rw [show (some fmt).getD "text" = fmt from rfl, h, except_error_bind]
    left
    rfl
  · rw [show (some fmt).getD "text" = fmt from rfl, hr, except_ok_bind]
    right
    exact ⟨_, rfl, by rw [hp]; rfl, by rw [hi]⟩

theorem unknown_format_witness :
    formatSection "a" "hi" "json" = .error ("Unexpected format: " ++ "json") :=
  (@unknown_format_fails_loudly Unit "json" (by decide) (by decide)).1 "a" "hi"

theorem dfSectionIds_sublist_collectIds {Ctx : Type}
    (nodes : List (PromptNode Ctx)) :
    (dfSectionIds nodes).Sublist (collectIds nodes) := by
  induction nodes using collectIds.induct with
  | case1 => simp [dfSectionIds, collectIds]
  | case2 s ns ih =>
      rw [dfSectionIds, collectIds]
      exact ih.cons₂ s.id
  | case3 gid children ns ih1 ih2 =>
      rw [dfSectionIds, collectIds]
      exact List.Sublist.append (ih1.cons gid) ih2
  | case4 cands ns ih =>
      rw [dfSectionIds, collectIds]
      exact List.Sublist.append (List.Sublist.refl _) ih

theorem renderNodes_text_total {Ctx : Type} :
    ∀ (nodes : List (PromptNode Ctx)) (ctx : Ctx),
    noOneOf nodes = true → noGuards nodes = true →
    allRenderNonEmpty nodes ctx = true →
    renderNodes nodes ctx "text" =
      .ok ⟨dfRenders nodes ctx, dfSectionIds nodes, []⟩ := by
  intro nodes ctx
  induction nodes using noOneOf.induct with
  | case1 =>
      intro _ _ _
      simp [renderNodes, dfRenders, dfSectionIds]
  | case2 s ns ih =>
      intro h1 h2 h3
      rw [noOneOf] at h1
      rw [noGuards, Bool.and_eq_true] at h2
      rw [allRenderNonEmpty, Bool.and_eq_true] at h3
      have hw : s.when = none := Option.isNone_iff_eq_none.mp h2.1
      have hr : s.render ctx ≠ "" := by simpa using h3.1
      have hsec : renderSection s ctx "text" =
          .ok (true, ⟨[s.render ctx], [s.id], []⟩) := by
        rw [renderSection]
        simp [passesGuard, hw, hr, formatSection, except_ok_bind, except_pure]
      rw [renderNodes, hsec, except_ok_bind, ih h1 h2.2 h3.2, except_ok_bind,
        except_pure]
      simp [RenderOut.append, dfRenders, dfSectionIds]
  | case3 gid children ns ih1 ih2 =>
      intro h1 h2 h3
      rw [noOneOf, Bool.and_eq_true] at h1
      rw [noGuards, Bool.and_eq_true] at h2
      rw [allRenderNonEmpty, Bool.and_eq_true] at h3
      rw [renderNodes, ih1 h1.1 h2.1 h3.1, except_ok_bind,
        groupContribution_text, except_ok_bind, ih2 h1.2 h2.2 h3.2,
        except_ok_bind, except_pure]
      simp [RenderOut.append, dfRenders, dfSectionIds]
  | case4 cands ns =>
      intro h1
      rw [noOneOf] at h1
      exact absurd h1 (by simp)

/-- C2 (amended): for trees containing no alternative-set, in which no
section has a guard and every render is non-empty under the context,
`buildWithMeta(ctx, text)` returns an empty excluded list, an included
list equal to the depth-first section-id sequence (`ids()` with the group
ids omitted — proved a subsequence of `ids()`), and a prompt equal to the
rendered fragments joined by `"\n\n"` and trimmed. (With an
alternative-set present the excluded list is not empty — losing
candidates are excluded — see the counterexample.) -/
theorem text_build_no_guards_no_oneOf {Ctx : Type} (b : PromptBuilder Ctx)
    (ctx : Ctx) (h1 : noOneOf b.nodes = true) (h2 : noGuards b.nodes = true)
    (h3 : allRenderNonEmpty b.nodes ctx = true) :
    b.buildWithMeta ctx (some "text") =
      .ok ⟨jsTrim (String.intercalate "\n\n" (dfRenders b.nodes ctx)),
        dfSectionIds b.nodes, []⟩ ∧
    (dfSectionIds b.nodes).Sublist b.ids := by
  constructor
  · rw [PromptBuilder.buildWithMeta,
      show (some "text").getD "text" = "text" from rfl,
      renderNodes_text_total b.nodes ctx h1 h2 h3, except_ok_bind, except_pure]
  · rw [PromptBuilder.ids]
    exact dfSectionIds_sublist_collectIds b.nodes

theorem text_build_witness :
    (⟨[PromptNode.sec ⟨"a", none, fun _ => "first", none⟩,
       PromptNode.sec ⟨"b", none, fun _ => "second", none⟩]⟩ :
      PromptBuilder Unit).buildWithMeta () (some "text") =
      .ok ⟨"first\n\nsecond", ["a", "b"], []⟩ := by
  have h := (text_build_no_guards_no_oneOf
    (⟨[PromptNode.sec ⟨"a", none, fun _ => "first", none⟩,
       PromptNode.sec ⟨"b", none, fun _ => "second", none⟩]⟩ : PromptBuilder Unit)
    () (by simp [noOneOf]) (by simp [noGuards]) (by simp [allRenderNonEmpty])).1
  rw [h]
  simp only [dfRenders, dfSectionIds]
  exact congrArg Except.ok (by decide)

/-- C2 counterexample: a guard-free tree whose renders are all non-empty
but which holds an alternative-set `[A, B]` renders with `B` excluded, so
the claim's "excluded list is empty for every such tree" fails. -/
theorem text_build_oneOf_counterexample :
    (noGuards [PromptNode.oneOf
      [(⟨"A", none, fun _ => "aa", none⟩ : PromptSection Unit),
       ⟨"B", none, fun _ => "bb", none⟩]] = true) ∧
    (allRenderNonEmpty [PromptNode.oneOf
      [(⟨"A", none, fun _ => "aa", none⟩ : PromptSection Unit),
       ⟨"B", none, fun _ => "bb", none⟩]] () = true) ∧
    ((⟨[PromptNode.oneOf
      [(⟨"A", none, fun _ => "aa", none⟩ : PromptSection Unit),
       ⟨"B", none, fun _ => "bb", none⟩]]⟩ :
        PromptBuilder Unit).buildWithMeta () (some "text") =
      .ok ⟨"aa", ["A"], ["B"]⟩) := by
  refine ⟨by simp [noGuards], by simp [allRenderNonEmpty], ?_⟩
  simp only [PromptBuilder.buildWithMeta, Option.getD, renderNodes, renderOneOf,
    renderOneOfGo, renderSection, passesGuard, formatSection, RenderOut.append,
    except_ok_bind, except_pure]
  simp [renderNodes, renderOneOfGo, renderSection, passesGuard, formatSection,
    RenderOut.append, except_ok_bind, except_pure]
  decide

end Teleprompt
